import Mathlib

/-!
Verification development for the ratioboss repository: a BitTorrent
ratio-faking tool whose core is an announce session engine. The repository
contains two near-duplicate announce loops (the `src/main.go` loop with
peer-count gating, and the simpler loop in the unnamed main file that owns
the `complete` flag, the fixed 30s retry interval and the terminal Stopped
announce), plus the vendored `byt` byte-size formatting/parsing library.

Conventions of the embedding:
- Go `int64` quantities are modelled as `ℤ`; Go `float64` arithmetic is
  modelled exactly over `ℚ` (exact for every concrete value appearing in
  the theorems below); a Go conversion from `float64` to an integer type
  truncates toward zero and is modelled by `trunc`.
- Go's `rand.Float64()` draw is an explicit parameter `u` ranging over
  `[0, 1]`.
- Wall-clock times are `ℚ`; `time.Since(t)` at instant `now` is `now - t`.
- The fallible transport call `tracker.Announce` is an explicit parameter
  of type `Option ℕ` (`some i` = success with advertised interval `i`
  seconds, `none` = transport error).
-/

namespace Ratioboss

/-- Truncation toward zero of a rational, the semantics of Go conversions
from `float64` to `int64` (and to the `byt.Size` / `ByteSize` integer
types): `Int.tdiv` is integer division truncating toward zero, so
`trunc q` is the integer part of `q`. -/
def trunc (q : ℚ) : ℤ := q.num.tdiv (q.den : ℤ)

/-- Protocol lifecycle events (`tracker.AnnounceEvent`): `None`, `Completed`,
`Started`, `Stopped`. -/
inductive TEvent where
  | started
  | none
  | completed
  | stopped
deriving DecidableEq, Repr

/-- Mutable session state of the unnamed main file's announce loop: the
package-level variables `size`, `down`, `up`, `complete`, `stall`,
`lastResp`. Go's `time.Time` zero value is modelled by the flag
`lastRespSet` (false exactly when `lastResp.IsZero()`). -/
structure Session where
  size : ℤ
  down : ℤ
  up : ℤ
  complete : Bool
  stall : Bool
  lastRespSet : Bool
  lastResp : ℚ
deriving DecidableEq, Repr

/-- Immutable per-session configuration: the `-down` / `-up` flag values
(`downSpeed`, `upSpeed : byt.Size`, bytes per second). -/
structure Config where
  downSpeed : ℤ
  upSpeed : ℤ
deriving DecidableEq, Repr

/-- Per-announce-call environment: the wall clock at the call, the two
`rand.Float64()` draws consumed by `randNoise`, and the transport outcome. -/
structure TickInput where
  now : ℚ
  uDown : ℚ
  uUp : ℚ
  transport : Option ℕ
deriving DecidableEq, Repr

/-- The fields of the `tracker.AnnounceRequest` built by `announce` that the
claims talk about. `left` is a `uint64` and hence a `ℕ`. -/
structure Request where
  downloaded : ℤ
  left : ℕ
  uploaded : ℤ
  event : TEvent
deriving DecidableEq, Repr

/-- The noise margin constant of the unnamed main file: `noise = 0.3`. -/
def noise : ℚ := 3 / 10

/-- The fixed retry interval of the unnamed main file:
`retryInterval = 30 * time.Second`, in seconds. -/
def retryInterval : ℕ := 30

/-- The `randNoise` function of the unnamed main file:
`float64(n) + (rand.Float64()-0.5)*2*noise*float64(n)`, with the random
draw `u` made explicit. -/
def randNoise (n u : ℚ) : ℚ := n + (u - 1 / 2) * 2 * noise * n

/-- The `randMargin` function of `src/main.go`:
`(mathrand.Float64() - 0.5) * 2 * margin * float64(n)`. Note that it
returns only the signed delta; the call sites add it to the nominal rate. -/
def randMargin (n : ℤ) (margin u : ℚ) : ℚ := (u - 1 / 2) * 2 * margin * (n : ℚ)

/-- The progress accumulator shared by both announce loops
(`src/main.go` lines 80-82, unnamed main lines 269 and 274):
`down = min(size, down + Size(elapsed * downRate))` and
`up += Size(elapsed * upRate)`, where the `Size`/`int64` conversions
truncate toward zero. -/
def advance (size down up : ℤ) (elapsed downRate upRate : ℚ) : ℤ × ℤ :=
  (min size (down + trunc (elapsed * downRate)), up + trunc (elapsed * upRate))

/-- The new downloaded total computed by a tick of the unnamed main file's
`announce`: `down = min(size, down + Size(elapsed*randNoise(downSpeed)))`
with `elapsed = time.Since(lastResp).Seconds()`. -/
def tickDown (cfg : Config) (s : Session) (inp : TickInput) : ℤ :=
  min s.size
    (s.down + trunc ((inp.now - s.lastResp) * randNoise (cfg.downSpeed : ℚ) inp.uDown))

/-- The new uploaded total computed by a tick of the unnamed main file's
`announce`: `up += Size(elapsed*randNoise(upSpeed))`. -/
def tickUp (cfg : Config) (s : Session) (inp : TickInput) : ℤ :=
  s.up + trunc ((inp.now - s.lastResp) * randNoise (cfg.upSpeed : ℚ) inp.uUp)

/-- The progress/event phase at the top of the unnamed main file's
`announce` function: when `!lastResp.IsZero() && !stall`, advance `down`
(capped at `size`) and `up` by `elapsed * randNoise(speed)`, and if `down`
just reached `size` with `complete` still false, overwrite the event with
`Completed` and set `complete`. -/
def advancePhase (cfg : Config) (s : Session) (ev : TEvent) (inp : TickInput) :
    Session × TEvent :=
  if s.lastRespSet = true ∧ s.stall = false then
    if tickDown cfg s inp = s.size ∧ s.complete = false then
      ({ s with down := tickDown cfg s inp, up := tickUp cfg s inp, complete := true },
        TEvent.completed)
    else
      ({ s with down := tickDown cfg s inp, up := tickUp cfg s inp }, ev)
  else (s, ev)

/-- Modulus of the Go `uint64` conversion applied to `size - down`. -/
def UINT64 : ℤ := 2 ^ 64

/-- One full call of the unnamed main file's `announce(event)`:
advance progress and derive the event (`advancePhase`), build the request
(`Left: uint64(size - down)` reinterprets the `int64` difference mod
`2^64`), perform one transport attempt, unconditionally record
`lastResp = time.Now()`, then schedule: on error, no reschedule for a
`Stopped` event and the fixed `retryInterval` otherwise; on success, no
reschedule for `Stopped` and the tracker-advertised interval otherwise. -/
def announceStep (cfg : Config) (s : Session) (ev : TEvent) (inp : TickInput) :
    Session × TEvent × Request × Option ℕ :=
  let a := advancePhase cfg s ev inp
  let s1 := a.1
  let ev1 := a.2
  let req : Request :=
    { downloaded := s1.down
      left := ((s1.size - s1.down) % UINT64).toNat
      uploaded := s1.up
      event := ev1 }
  let s2 := { s1 with lastRespSet := true, lastResp := inp.now }
  let next : Option ℕ :=
    match inp.transport with
    | Option.none => if ev1 = TEvent.stopped then Option.none else Option.some retryInterval
    | Option.some i => if ev1 = TEvent.stopped then Option.none else Option.some i
  (s2, ev1, req, next)

/-- Session state after an announce step. -/
def stepSession (cfg : Config) (s : Session) (ev : TEvent) (inp : TickInput) : Session :=
  (announceStep cfg s ev inp).1

/-- Event actually sent by an announce step. -/
def stepSent (cfg : Config) (s : Session) (ev : TEvent) (inp : TickInput) : TEvent :=
  (announceStep cfg s ev inp).2.1

/-- Request built by an announce step. -/
def stepReq (cfg : Config) (s : Session) (ev : TEvent) (inp : TickInput) : Request :=
  (announceStep cfg s ev inp).2.2.1

/-- Next-tick schedule produced by an announce step (`none` = no further
tick scheduled). -/
def stepNext (cfg : Config) (s : Session) (ev : TEvent) (inp : TickInput) : Option ℕ :=
  (announceStep cfg s ev inp).2.2.2

/-- Session states along an infinite run of the unnamed main file's periodic
tick loop: each loop iteration fires `announce(tracker.None)`. `inp n` is
the environment of the n-th tick. -/
def stateStream (cfg : Config) (s0 : Session) (inp : ℕ → TickInput) : ℕ → Session
  | 0 => s0
  | Nat.succ n => stepSession cfg (stateStream cfg s0 inp n) TEvent.none (inp n)

/-- Event actually sent by the n-th periodic tick of the loop. -/
def eventStream (cfg : Config) (s0 : Session) (inp : ℕ → TickInput) (n : ℕ) : TEvent :=
  stepSent cfg (stateStream cfg s0 inp n) TEvent.none (inp n)

/-- The two things the `select` in the unnamed main file's loop can observe:
a timer firing (`<-interval`) or the interrupt signal (`<-interrupt`). -/
inductive LoopEvt where
  | timer
  | interrupt
deriving DecidableEq, Repr

/-- The tick loop of the unnamed main file's `main`, driven by an observed
sequence of loop events: a timer event runs `announce(tracker.None)` and
continues; the first interrupt breaks the loop, after which `main` runs one
final `announce(tracker.Stopped)` and returns — any loop events after the
interrupt (e.g. an already-due timer) are discarded, never processed.
Returns the sequence of events actually sent on the wire, in order. An
empty event list means the loop is still blocked waiting, having announced
nothing further. -/
def sessionLoop (cfg : Config) : Session → List LoopEvt → (ℕ → TickInput) → ℕ → List TEvent
  | _, [], _, _ => []
  | s, LoopEvt.timer :: rest, inp, k =>
      stepSent cfg s TEvent.none (inp k) ::
        sessionLoop cfg (stepSession cfg s TEvent.none (inp k)) rest inp (k + 1)
  | s, LoopEvt.interrupt :: _, inp, k =>
      [stepSent cfg s TEvent.stopped (inp k)]

/-- Session state after `m` consecutive timer ticks starting at input
index `k`. -/
def ticksFrom (cfg : Config) (inp : ℕ → TickInput) : Session → ℕ → ℕ → Session
  | s, _, 0 => s
  | s, k, Nat.succ m => ticksFrom cfg inp (stepSession cfg s TEvent.none (inp k)) (k + 1) m

/-- Events sent by `m` consecutive timer ticks starting at input index `k`. -/
def ticksTrace (cfg : Config) (inp : ℕ → TickInput) : Session → ℕ → ℕ → List TEvent
  | _, _, 0 => []
  | s, k, Nat.succ m =>
      stepSent cfg s TEvent.none (inp k) ::
        ticksTrace cfg inp (stepSession cfg s TEvent.none (inp k)) (k + 1) m

namespace MainGo

/-- Configuration of the `src/main.go` loop: the `-s`, `-l`, `-d`, `-u`,
`-dm`, `-um` flags (with speeds already converted to bytes/second). -/
structure MainCfg where
  minSeeders : ℤ
  minLeechers : ℤ
  baseDownSpeedByte : ℤ
  baseUpSpeedByte : ℤ
  downMargin : ℚ
  upMargin : ℚ
deriving DecidableEq, Repr

/-- The rate update applied by `src/main.go` after each announce that got a
response (lines 131-148): if the response's seeder or leecher count is below
its configured minimum, both current speeds are zeroed (stall); otherwise
the upload speed is redrawn as `base + int64(randMargin(base, margin))`
and the download speed likewise, unless `TotalLength() - downloaded > 0`
fails, in which case it is zeroed. Returns
`(curDownSpeedByte, curUpSpeedByte)`. -/
def updateRates (c : MainCfg) (totalLength downloaded : ℤ) (seeders leechers : ℤ)
    (uDown uUp : ℚ) : ℤ × ℤ :=
  if seeders < c.minSeeders ∨ leechers < c.minLeechers then
    (0, 0)
  else
    (if totalLength - downloaded > 0 then
       c.baseDownSpeedByte + trunc (randMargin c.baseDownSpeedByte c.downMargin uDown)
     else 0,
     c.baseUpSpeedByte + trunc (randMargin c.baseUpSpeedByte c.upMargin uUp))

/-- The fixed delay slept between failed startup announces in `src/main.go`:
`sleepFor := 10 * time.Second`, in seconds. -/
def startRetryDelay : ℕ := 10

/-- The startup retry loop of `src/main.go` (lines 103-115): before the
first successful announce the request event is `Started`; the inner loop
calls `tracker.Announce` and, on error, sleeps the fixed delay and retries
the same `Started` request forever. `outcome k` is the transport result of
the k-th attempt; `fuel` bounds how many attempts we observe. Returns the
list of events sent by the observed attempts (each paired with the delay in
seconds slept before the next attempt, 0 after a success since the loop
breaks) and the response of the first success, if one occurred. -/
def startedRetry (outcome : ℕ → Option ℕ) : ℕ → ℕ → List (TEvent × ℕ) × Option ℕ
  | _, 0 => ([], Option.none)
  | k, Nat.succ fuel =>
      match outcome k with
      | Option.some r => ([(TEvent.started, 0)], Option.some r)
      | Option.none =>
          ((TEvent.started, startRetryDelay) :: (startedRetry outcome (k + 1) fuel).1,
           (startedRetry outcome (k + 1) fuel).2)

end MainGo

namespace Byt

/-- One step bound for the unit-finding loop of `byt.Size.format`; the loop
runs at most 7 times for any `int64` quantity, so a fuel of 128 is never
exhausted on the values the program handles. -/
def formatLoopFuel : ℕ := 128

/-- The unit-finding loop of `byt.Size.format`:
`u, ss := Byt, s; for ss >= un { ss /= un; u *= un }`, with Go `int64`
division truncating toward zero. Returns the final `(ss, u)`. -/
def formatLoop (un : ℤ) : ℤ → ℤ → ℕ → ℤ × ℤ
  | ss, u, 0 => (ss, u)
  | ss, u, Nat.succ fuel =>
      if un ≤ ss then formatLoop un (ss.tdiv un) (u * un) fuel else (ss, u)

/-- The unit selected by binary formatting of `s` (the `u` of `format`
with `un = Kibibyte`). -/
def binUnit (s : ℤ) : ℤ := (formatLoop 1024 s 1 formatLoopFuel).2

/-- The unit selected by decimal formatting of `s` (the `u` of `format`
with `un = Kilobyte`). -/
def decUnit (s : ℤ) : ℤ := (formatLoop 1000 s 1 formatLoopFuel).2

/-- The `symbols` map of the `byt` package, as a lookup on the unit value
(a Go map access returning the empty string for a missing key). -/
def symbolFor (u : ℤ) : String :=
  if u = 1 then "B"
  else if u = 1024 then "KiB"
  else if u = 1024 ^ 2 then "MiB"
  else if u = 1024 ^ 3 then "GiB"
  else if u = 1024 ^ 4 then "TiB"
  else if u = 1024 ^ 5 then "PiB"
  else if u = 1024 ^ 6 then "EiB"
  else if u = 1000 then "KB"
  else if u = 10 ^ 6 then "MB"
  else if u = 10 ^ 9 then "GB"
  else if u = 10 ^ 12 then "TB"
  else if u = 10 ^ 15 then "PB"
  else if u = 10 ^ 18 then "EB"
  else ""

/-- Round-to-nearest with ties to even of the exact quotient `a / b`
(`b > 0`), the rounding `strconv.AppendFloat(_, 'f', prec, 64)` applies to
the digit at the precision cutoff. `Int.fdiv` is floor division, so
`r = a - f * b` is the remainder in `[0, b)`. -/
def roundHalfEvenDiv (a b : ℤ) : ℤ :=
  let f := a.fdiv b
  let r := a - f * b
  if 2 * r = b then (if f % 2 = 0 then f else f + 1)
  else if 2 * r < b then f else f + 1

/-- Decimal digit string of a natural number below 100, zero-padded to two
digits, as produced for the fractional part of a `%.2f` format. -/
def padTwo (n : ℕ) : String :=
  if n < 10 then "0" ++ Nat.repr n else Nat.repr n

/-- Rendering of the exact value `s / u` in Go `%.2f` fixed-point notation
(`strconv.AppendFloat(b, n, 102, 2, 64)` on `n = float64(s)/float64(u)`;
exact for the values at issue since `float64(s)` is exact below `2^53` and
the binary units are powers of two). -/
def fixed2 (s u : ℤ) : String :=
  let m := roundHalfEvenDiv (100 * s) u
  let a := m.natAbs
  let str := Nat.repr (a / 100) ++ "." ++ padTwo (a % 100)
  if m < 0 then "-" ++ str else str

/-- The output of `fmt.Sprintf("%.2f", Size(s).Binary())`: the `format`
loop with `un = Kibibyte` followed by the two-decimal rendering, a space
and the unit symbol. -/
def formatBinary2 (s : ℤ) : String :=
  fixed2 s (binUnit s) ++ " " ++ symbolFor (binUnit s)

/-- The output of `fmt.Sprintf("%.2f", Size(s).Decimal())`: the `format`
loop with `un = Kilobyte` followed by the two-decimal rendering, a space
and the unit symbol. -/
def formatDecimal2 (s : ℤ) : String :=
  fixed2 s (decUnit s) ++ " " ++ symbolFor (decUnit s)

/-- The `suffixes` map of the `byt` package as an association list. Go
iterates map entries in unspecified order, but no string has two distinct
matching suffixes (the single-letter keys end in a letter of `kmgtpe`
while the two-letter keys end in `b`), so a fixed order is faithful. -/
def suffixes : List (String × ℤ) :=
  [("kb", 10 ^ 3), ("mb", 10 ^ 6), ("gb", 10 ^ 9),
   ("tb", 10 ^ 12), ("pb", 10 ^ 15), ("eb", 10 ^ 18),
   ("k", 1024), ("m", 1024 ^ 2), ("g", 1024 ^ 3),
   ("t", 1024 ^ 4), ("p", 1024 ^ 5), ("e", 1024 ^ 6)]

/-- Suffix test on character lists (`strings.HasSuffix`). -/
def hasSuffixCL (s suf : List Char) : Bool :=
  List.isPrefixOf suf.reverse s.reverse

/-- The first suffix entry matching `s`, with the trimmed remainder
(`strings.HasSuffix` / `strings.TrimSuffix` over the `suffixes` map). -/
def findSuffix (s : List Char) : Option (List Char × ℤ) :=
  match suffixes.find? (fun p => hasSuffixCL s p.1.toList) with
  | Option.none => Option.none
  | Option.some p => Option.some (s.take (s.length - p.1.toList.length), p.2)

/-- Value of a digit list as a natural number. -/
def digitsVal (l : List Char) : ℕ :=
  l.foldl (fun a c => a * 10 + (c.toNat - 48)) 0

/-- Exact decimal-literal subset of `strconv.ParseFloat`: an optional sign,
an integer part and an optional fractional part, at least one digit in
total (covering every numeric string the theorems below feed to the
parser; exponent, hexadecimal, infinity and NaN forms are not modelled —
on the strings at issue Go rejects them identically). The value is
returned exactly as a scaled pair `(m, e)` denoting `m / 10^e`. -/
def parseDec (l : List Char) : Option (ℤ × ℕ) :=
  let core : List Char → Option (ℤ × ℕ) := fun l2 =>
    match l2.splitOn '.' with
    | [ip] =>
        if ip ≠ [] ∧ ip.all Char.isDigit then Option.some ((digitsVal ip : ℤ), 0)
        else Option.none
    | [ip, fp] =>
        if (ip ++ fp) ≠ [] ∧ ip.all Char.isDigit ∧ fp.all Char.isDigit then
          Option.some ((digitsVal ip * 10 ^ fp.length + digitsVal fp : ℤ), fp.length)
        else Option.none
    | _ => Option.none
  match l with
  | '+' :: rest => core rest
  | '-' :: rest =>
      match core rest with
      | Option.some me => Option.some (-me.1, me.2)
      | Option.none => Option.none
  | _ => core l

/-- The `parseCLI` function of the `byt` package: lower-case the input, try
the unit suffixes, parse the numeric part exactly, scale by the unit and
truncate to an integer byte count (`Size(x * float64(size))`, a
float-to-int64 conversion truncating toward zero, here computed exactly on
the rational value `m / 10^e * size` by a truncating integer division).
`Option.none` models the Go error return. -/
def parseCLI (s : String) : Option ℤ :=
  let l := (s.toList).map Char.toLower
  match findSuffix l with
  | Option.some r =>
      match parseDec r.1 with
      | Option.some me => Option.some ((me.1 * r.2).tdiv (10 ^ me.2))
      | Option.none => Option.none
  | Option.none =>
      match parseDec l with
      | Option.some me => Option.some (me.1.tdiv (10 ^ me.2))
      | Option.none => Option.none

/-- The parser-grammar suffix denoting the same multiplier as a binary
format unit (`"k"` for KiB, `"m"` for MiB, ...; empty for bytes). Used to
state the amended round-trip property. -/
def cliSuffixFor (u : ℤ) : String :=
  if u = 1 then ""
  else if u = 1024 then "k"
  else if u = 1024 ^ 2 then "m"
  else if u = 1024 ^ 3 then "g"
  else if u = 1024 ^ 4 then "t"
  else if u = 1024 ^ 5 then "p"
  else if u = 1024 ^ 6 then "e"
  else ""

/-- The binary-formatted value rendered with the parser's equivalent
suffix instead of the formatter's (unparseable) symbol and space. -/
def formatBinaryCLI2 (s : ℤ) : String :=
  fixed2 s (binUnit s) ++ cliSuffixFor (binUnit s)

/-- Recovery within one unit of the two-decimal display precision: the
parse succeeded and the recovered count differs from `n` by at most
`0.01` of the display unit chosen for `n`. -/
def withinOneCentiUnit (n : ℤ) (r : Option ℤ) : Bool :=
  match r with
  | Option.some v => ((v - n).natAbs : ℤ) * 100 ≤ binUnit n
  | Option.none => false

end Byt

theorem trunc_nonneg {q : ℚ} (h : 0 ≤ q) : 0 ≤ trunc q :=
  Int.tdiv_nonneg (Rat.num_nonneg.mpr h) (by positivity)

theorem trunc_eq_floor {q : ℚ} (h : 0 ≤ q) : trunc q = ⌊q⌋ := by
  rw [trunc, Int.tdiv_eq_ediv (Rat.num_nonneg.mpr h) (by positivity), Rat.floor_def]

theorem trunc_cast_le {q : ℚ} (h : 0 ≤ q) : (trunc q : ℚ) ≤ q := by
  rw [trunc_eq_floor h]
  exact Int.floor_le q

@[simp] theorem trunc_natCast (n : ℕ) : trunc (n : ℚ) = n := by
  simp [trunc]

@[simp] theorem trunc_intCast (z : ℤ) : trunc (z : ℚ) = z := by
  simp [trunc]

example : trunc (7 / 2 : ℚ) = 3 := by norm_num [trunc]; decide
example : randNoise 10 (1 / 2) = 10 := by norm_num [randNoise]

/-! Projection lemmas for `advancePhase` and `announceStep`. -/

theorem advancePhase_size (cfg : Config) (s : Session) (ev : TEvent) (inp : TickInput) :
    (advancePhase cfg s ev inp).1.size = s.size := by
  unfold advancePhase
  split
  · split <;> rfl
  · rfl

theorem advancePhase_stall (cfg : Config) (s : Session) (ev : TEvent) (inp : TickInput) :
    (advancePhase cfg s ev inp).1.stall = s.stall := by
  unfold advancePhase
  split
  · split <;> rfl
  · rfl

theorem advancePhase_lastRespSet (cfg : Config) (s : Session) (ev : TEvent) (inp : TickInput) :
    (advancePhase cfg s ev inp).1.lastRespSet = s.lastRespSet := by
  unfold advancePhase
  split
  · split <;> rfl
  · rfl

theorem advancePhase_lastResp (cfg : Config) (s : Session) (ev : TEvent) (inp : TickInput) :
    (advancePhase cfg s ev inp).1.lastResp = s.lastResp := by
  unfold advancePhase
  split
  · split <;> rfl
  · rfl

/-- The event derived by the progress phase is either the caller's event or
`Completed`: `announce` only ever overwrites the passed-in event with
`tracker.Completed`. -/
theorem advancePhase_event (cfg : Config) (s : Session) (ev : TEvent) (inp : TickInput) :
    (advancePhase cfg s ev inp).2 = ev ∨ (advancePhase cfg s ev inp).2 = TEvent.completed := by
  unfold advancePhase
  split
  · split
    · exact Or.inr rfl
    · exact Or.inl rfl
  · exact Or.inl rfl

/-- The active branch of `advancePhase` under a running, non-stalled session. -/
theorem advancePhase_active (cfg : Config) (s : Session) (ev : TEvent) (inp : TickInput)
    (h1 : s.lastRespSet = true) (h2 : s.stall = false) :
    advancePhase cfg s ev inp =
      (if tickDown cfg s inp = s.size ∧ s.complete = false then
        ({ s with down := tickDown cfg s inp, up := tickUp cfg s inp, complete := true },
          TEvent.completed)
       else
        ({ s with down := tickDown cfg s inp, up := tickUp cfg s inp }, ev)) := by
  unfold advancePhase
  rw [if_pos ⟨h1, h2⟩]

theorem announceStep_session (cfg : Config) (s : Session) (ev : TEvent) (inp : TickInput) :
    (announceStep cfg s ev inp).1 =
      { (advancePhase cfg s ev inp).1 with lastRespSet := true, lastResp := inp.now } := rfl

theorem announceStep_sent (cfg : Config) (s : Session) (ev : TEvent) (inp : TickInput) :
    (announceStep cfg s ev inp).2.1 = (advancePhase cfg s ev inp).2 := rfl

theorem announceStep_req (cfg : Config) (s : Session) (ev : TEvent) (inp : TickInput) :
    (announceStep cfg s ev inp).2.2.1 =
      { downloaded := (advancePhase cfg s ev inp).1.down
        left := (((advancePhase cfg s ev inp).1.size -
          (advancePhase cfg s ev inp).1.down) % UINT64).toNat
        uploaded := (advancePhase cfg s ev inp).1.up
        event := (advancePhase cfg s ev inp).2 } := rfl

theorem announceStep_next (cfg : Config) (s : Session) (ev : TEvent) (inp : TickInput) :
    (announceStep cfg s ev inp).2.2.2 =
      match inp.transport with
      | Option.none =>
          if (advancePhase cfg s ev inp).2 = TEvent.stopped then Option.none
          else Option.some retryInterval
      | Option.some i =>
          if (advancePhase cfg s ev inp).2 = TEvent.stopped then Option.none
          else Option.some i := rfl


/-- The event sent by an announce call is either the event the caller
passed in or `Completed`. -/
theorem stepSent_cases (cfg : Config) (s : Session) (ev : TEvent) (inp : TickInput) :
    stepSent cfg s ev inp = ev ∨ stepSent cfg s ev inp = TEvent.completed :=
  advancePhase_event cfg s ev inp

/-- C1: for a session state with `0 ≤ downloaded ≤ totalSize`, every elapsed
time `t ≥ 0` and non-negative instantaneous rates, the tick advance yields
`newDownloaded = min(totalSize, downloaded + t·downRate)` (the product
passing through the code's float-to-integer truncation), so the new
downloaded value never exceeds `totalSize` and is never negative, and both
downloaded and uploaded are monotonically non-decreasing across the tick. -/
theorem C1_advance_bounds (size down up : ℤ) (t downRate upRate : ℚ)
    (hd0 : 0 ≤ down) (hds : down ≤ size) (ht : 0 ≤ t)
    (hdr : 0 ≤ downRate) (hur : 0 ≤ upRate) :
    (advance size down up t downRate upRate).1 = min size (down + trunc (t * downRate)) ∧
    (advance size down up t downRate upRate).1 ≤ size ∧
    0 ≤ (advance size down up t downRate upRate).1 ∧
    down ≤ (advance size down up t downRate upRate).1 ∧
    up ≤ (advance size down up t downRate upRate).2 := by
  have h1 : 0 ≤ trunc (t * downRate) := trunc_nonneg (mul_nonneg ht hdr)
  have h2 : 0 ≤ trunc (t * upRate) := trunc_nonneg (mul_nonneg ht hur)
  have e1 : (advance size down up t downRate upRate).1
      = min size (down + trunc (t * downRate)) := rfl
  have e2 : (advance size down up t downRate upRate).2 = up + trunc (t * upRate) := rfl
  rw [e1, e2]
  refine ⟨rfl, ?_, ?_, ?_, ?_⟩ <;> omega

/-- Witness for C1 at `size = 10`, `down = 3`, `up = 1`, `t = 2`,
`downRate = 1`, `upRate = 5`. -/
theorem C1_advance_bounds_witness :
    ((0 : ℤ) ≤ 3 ∧ (3 : ℤ) ≤ 10 ∧ (0 : ℚ) ≤ 2 ∧ (0 : ℚ) ≤ 1 ∧ (0 : ℚ) ≤ 5) ∧
    ((advance 10 3 1 2 1 5).1 = min 10 (3 + trunc (2 * 1)) ∧
     (advance 10 3 1 2 1 5).1 ≤ 10 ∧
     0 ≤ (advance 10 3 1 2 1 5).1 ∧
     3 ≤ (advance 10 3 1 2 1 5).1 ∧
     1 ≤ (advance 10 3 1 2 1 5).2) :=
  ⟨⟨by norm_num, by norm_num, by norm_num, by norm_num, by norm_num⟩,
   C1_advance_bounds 10 3 1 2 1 5 (by norm_num) (by norm_num) (by norm_num)
     (by norm_num) (by norm_num)⟩

/-- C7: the perturbed rate built from a nominal rate `n` and a uniform draw
`u ∈ [0, 1]` (so that `v = (2u-1)·m` ranges over `[-m, m]`) equals
`n · (1 + v)`, both for `src/main.go`'s parametric `randMargin` added to
the base rate at its call sites and for the unnamed main file's `randNoise`
with its fixed margin `noise = 0.3`; for non-negative `n` and `m` the
perturbed value lies in `[n·(1-m), n·(1+m)]`. -/
theorem C7_perturbed_rate (nI : ℤ) (nQ m u : ℚ) (hu0 : 0 ≤ u) (hu1 : u ≤ 1) :
    ((nI : ℚ) + randMargin nI m u = (nI : ℚ) * (1 + (2 * u - 1) * m)) ∧
    (randNoise nQ u = nQ * (1 + (2 * u - 1) * noise)) ∧
    (0 ≤ (nI : ℚ) → 0 ≤ m →
      (nI : ℚ) * (1 - m) ≤ (nI : ℚ) + randMargin nI m u ∧
      (nI : ℚ) + randMargin nI m u ≤ (nI : ℚ) * (1 + m)) ∧
    (0 ≤ nQ →
      nQ * (1 - noise) ≤ randNoise nQ u ∧ randNoise nQ u ≤ nQ * (1 + noise)) := by
  refine ⟨by rw [randMargin]; ring, by rw [randNoise]; ring, fun hn hm => ⟨?_, ?_⟩,
    fun hn => ⟨?_, ?_⟩⟩
  · rw [randMargin]
    nlinarith [mul_nonneg (mul_nonneg hn hm) hu0]
  · rw [randMargin]
    nlinarith [mul_nonneg (mul_nonneg hn hm) (sub_nonneg.mpr hu1)]
  · rw [randNoise, noise]
    nlinarith [mul_nonneg hn hu0]
  · rw [randNoise, noise]
    nlinarith [mul_nonneg hn (sub_nonneg.mpr hu1)]

/-- Witness for C7 at `nI = 8`, `nQ = 5`, `m = 1/4`, `u = 3/4`. -/
theorem C7_perturbed_rate_witness :
    ((0 : ℚ) ≤ 3 / 4 ∧ (3 / 4 : ℚ) ≤ 1) ∧
    (((8 : ℤ) : ℚ) + randMargin 8 (1 / 4) (3 / 4) =
        ((8 : ℤ) : ℚ) * (1 + (2 * (3 / 4) - 1) * (1 / 4)) ∧
     (randNoise 5 (3 / 4) = 5 * (1 + (2 * (3 / 4) - 1) * noise)) ∧
     (0 ≤ ((8 : ℤ) : ℚ) → 0 ≤ (1 / 4 : ℚ) →
       ((8 : ℤ) : ℚ) * (1 - 1 / 4) ≤ ((8 : ℤ) : ℚ) + randMargin 8 (1 / 4) (3 / 4) ∧
       ((8 : ℤ) : ℚ) + randMargin 8 (1 / 4) (3 / 4) ≤ ((8 : ℤ) : ℚ) * (1 + 1 / 4)) ∧
     ((0 : ℚ) ≤ 5 →
       (5 : ℚ) * (1 - noise) ≤ randNoise 5 (3 / 4) ∧
       randNoise 5 (3 / 4) ≤ 5 * (1 + noise))) :=
  ⟨⟨by norm_num, by norm_num⟩, C7_perturbed_rate 8 5 (1 / 4) (3 / 4) (by norm_num) (by norm_num)⟩

/-- C8: `fmt.Sprintf("%.2f", Size(1024).Binary())` is `"1.00 KiB"` and
`fmt.Sprintf("%.2f", Size(1000).Decimal())` is `"1.00 KB"`; `parseCLI`
maps `"5M"` to exactly `5·1024·1024` and `"2MB"` to exactly `2·1000·1000`,
a string with no unit suffix (here `"123"`) parses as a raw byte count,
and `"notanumber"` is rejected. -/
theorem C8_format_parse_examples :
    Byt.formatBinary2 1024 = "1.00 KiB" ∧
    Byt.formatDecimal2 1000 = "1.00 KB" ∧
    Byt.parseCLI "5M" = Option.some (5 * 1024 * 1024) ∧
    Byt.parseCLI "2MB" = Option.some (2 * 1000 * 1000) ∧
    Byt.parseCLI "123" = Option.some 123 ∧
    Byt.parseCLI "notanumber" = Option.none := by
  refine ⟨by decide, by decide, by decide, by decide, by decide, by decide⟩

/-- Counterexample to C9 as stated: parsing the string produced by binary
formatting of 1024 (`"1.00 KiB"`) does not succeed at all — `parseCLI`
accepts only the bare suffixes `k/m/g/t/p/e/kb/.../eb`, never the
formatter's `"KiB"`-style symbols or the space before them — so the
round trip recovers nothing, let alone `n` within one display unit. -/
theorem C9_roundtrip_counterexample :
    Byt.parseCLI (Byt.formatBinary2 1024) = Option.none := by decide

/-- C9 amended: for each representative `n`, parsing the binary-formatted
string fails outright (the formatter's unit symbols and separating space
are outside the parser's grammar); the round trip within one unit of the
two-decimal display precision instead holds for the same displayed value
once the formatter's symbol is replaced by the parser's equivalent binary
suffix (`"" / k / m / g`). -/
theorem C9_roundtrip_amended :
    (Byt.parseCLI (Byt.formatBinary2 0) = Option.none ∧
      Byt.withinOneCentiUnit 0 (Byt.parseCLI (Byt.formatBinaryCLI2 0)) = true) ∧
    (Byt.parseCLI (Byt.formatBinary2 1023) = Option.none ∧
      Byt.withinOneCentiUnit 1023 (Byt.parseCLI (Byt.formatBinaryCLI2 1023)) = true) ∧
    (Byt.parseCLI (Byt.formatBinary2 1024) = Option.none ∧
      Byt.withinOneCentiUnit 1024 (Byt.parseCLI (Byt.formatBinaryCLI2 1024)) = true) ∧
    (Byt.parseCLI (Byt.formatBinary2 1048576) = Option.none ∧
      Byt.withinOneCentiUnit 1048576 (Byt.parseCLI (Byt.formatBinaryCLI2 1048576)) = true) ∧
    (Byt.parseCLI (Byt.formatBinary2 5000000000) = Option.none ∧
      Byt.withinOneCentiUnit 5000000000
        (Byt.parseCLI (Byt.formatBinaryCLI2 5000000000)) = true) := by
  refine ⟨⟨by decide, by decide⟩, ⟨by decide, by decide⟩, ⟨by decide, by decide⟩,
    ⟨by decide, by decide⟩, ⟨by decide, by decide⟩⟩


/-- C4: if the transport fails on every call, `src/main.go`'s startup loop
(lines 103-115) never obtains a response — for every observation bound
`fuel` the loop is still retrying — and each observed attempt announces
`Started` followed by the fixed 10-second delay, so in particular no
periodic (`None`) announce is ever issued before a first success. -/
theorem C4_started_retries_forever (outcome : ℕ → Option ℕ)
    (h : ∀ k, outcome k = Option.none) :
    ∀ k fuel,
      (MainGo.startedRetry outcome k fuel).2 = Option.none ∧
      (MainGo.startedRetry outcome k fuel).1 =
        List.replicate fuel (TEvent.started, MainGo.startRetryDelay) ∧
      ∀ p ∈ (MainGo.startedRetry outcome k fuel).1, p.1 = TEvent.started := by
  intro k fuel
  induction fuel generalizing k with
  | zero => simp [MainGo.startedRetry]
  | succ n ih =>
      have hrec := ih (k + 1)
      refine ⟨?_, ?_, ?_⟩
      · simp [MainGo.startedRetry, h k, hrec.1]
      · simp [MainGo.startedRetry, h k, hrec.2.1, List.replicate_succ]
      · intro p hp
        simp only [MainGo.startedRetry, h k, List.mem_cons] at hp
        rcases hp with hp | hp
        · rw [hp]
        · exact hrec.2.2 p hp

/-- Witness for C4 with the always-failing transport, observing the first
three attempts from attempt index 0. -/
theorem C4_started_retries_forever_witness :
    (∀ k, (fun _ : ℕ => (Option.none : Option ℕ)) k = Option.none) ∧
    ((MainGo.startedRetry (fun _ => Option.none) 0 3).2 = Option.none ∧
     (MainGo.startedRetry (fun _ => Option.none) 0 3).1 =
       List.replicate 3 (TEvent.started, MainGo.startRetryDelay) ∧
     ∀ p ∈ (MainGo.startedRetry (fun _ => Option.none) 0 3).1, p.1 = TEvent.started) :=
  ⟨fun _ => rfl, C4_started_retries_forever (fun _ => Option.none) (fun _ => rfl) 0 3⟩

/-- C6: after a successful announce, `src/main.go` zeroes both current
speeds when the response's seeder or leecher count is below its configured
minimum; otherwise it redraws the upload speed from the nominal rate with
noise unconditionally and redraws the download speed likewise unless
downloaded equals the total length (given `downloaded ≤ totalLength`),
in which case the download speed is zeroed. -/
theorem C6_peer_gated_rates (c : MainGo.MainCfg) (totalLength downloaded : ℤ)
    (seeders leechers : ℤ) (uDown uUp : ℚ) (hdl : downloaded ≤ totalLength) :
    ((seeders < c.minSeeders ∨ leechers < c.minLeechers) →
      MainGo.updateRates c totalLength downloaded seeders leechers uDown uUp = (0, 0)) ∧
    (¬(seeders < c.minSeeders ∨ leechers < c.minLeechers) →
      (MainGo.updateRates c totalLength downloaded seeders leechers uDown uUp).2 =
          c.baseUpSpeedByte + trunc (randMargin c.baseUpSpeedByte c.upMargin uUp) ∧
      (downloaded = totalLength →
        (MainGo.updateRates c totalLength downloaded seeders leechers uDown uUp).1 = 0) ∧
      (downloaded ≠ totalLength →
        (MainGo.updateRates c totalLength downloaded seeders leechers uDown uUp).1 =
          c.baseDownSpeedByte + trunc (randMargin c.baseDownSpeedByte c.downMargin uDown))) := by
  constructor
  · intro h
    simp [MainGo.updateRates, h]
  · intro h
    refine ⟨by simp [MainGo.updateRates, h], ?_, ?_⟩
    · intro he
      have hz : ¬(totalLength - downloaded > 0) := by omega
      simp [MainGo.updateRates, h, hz]
    · intro hne
      have hz : totalLength - downloaded > 0 := by omega
      simp [MainGo.updateRates, h, hz]

/-- Witness for C6: thresholds 15/15, plentiful peers, download complete
(`downloaded = totalLength = 10`), draws `1/2`. -/
theorem C6_peer_gated_rates_witness :
    ((10 : ℤ) ≤ 10) ∧
    ((((20 : ℤ) < (15 : ℤ) ∨ (20 : ℤ) < (15 : ℤ)) →
      MainGo.updateRates
        { minSeeders := 15, minLeechers := 15, baseDownSpeedByte := 100,
          baseUpSpeedByte := 40, downMargin := 1 / 4, upMargin := 1 / 4 }
        10 10 20 20 (1 / 2) (1 / 2) = (0, 0)) ∧
    (¬((20 : ℤ) < (15 : ℤ) ∨ (20 : ℤ) < (15 : ℤ)) →
      (MainGo.updateRates
        { minSeeders := 15, minLeechers := 15, baseDownSpeedByte := 100,
          baseUpSpeedByte := 40, downMargin := 1 / 4, upMargin := 1 / 4 }
        10 10 20 20 (1 / 2) (1 / 2)).2 =
          40 + trunc (randMargin 40 (1 / 4) (1 / 2)) ∧
      ((10 : ℤ) = 10 →
        (MainGo.updateRates
          { minSeeders := 15, minLeechers := 15, baseDownSpeedByte := 100,
            baseUpSpeedByte := 40, downMargin := 1 / 4, upMargin := 1 / 4 }
          10 10 20 20 (1 / 2) (1 / 2)).1 = 0) ∧
      ((10 : ℤ) ≠ 10 →
        (MainGo.updateRates
          { minSeeders := 15, minLeechers := 15, baseDownSpeedByte := 100,
            baseUpSpeedByte := 40, downMargin := 1 / 4, upMargin := 1 / 4 }
          10 10 20 20 (1 / 2) (1 / 2)).1 =
          100 + trunc (randMargin 100 (1 / 4) (1 / 2))))) :=
  ⟨le_refl 10,
   C6_peer_gated_rates
     { minSeeders := 15, minLeechers := 15, baseDownSpeedByte := 100,
       baseUpSpeedByte := 40, downMargin := 1 / 4, upMargin := 1 / 4 }
     10 10 20 20 (1 / 2) (1 / 2) (le_refl 10)⟩

/-- The downloaded total after the progress phase stays within
`[downloaded, totalSize]` when the elapsed time, the configured download
speed and the random draw are in range. -/
theorem advancePhase_down_bounds (cfg : Config) (s : Session) (ev : TEvent) (inp : TickInput)
    (h0 : 0 ≤ s.down) (h1 : s.down ≤ s.size) (h3 : s.lastResp ≤ inp.now)
    (h4 : 0 ≤ cfg.downSpeed) (h5 : 0 ≤ inp.uDown) :
    0 ≤ (advancePhase cfg s ev inp).1.down ∧ (advancePhase cfg s ev inp).1.down ≤ s.size := by
  have hr : 0 ≤ randNoise (cfg.downSpeed : ℚ) inp.uDown := by
    rw [randNoise, noise]
    have hn : (0 : ℚ) ≤ (cfg.downSpeed : ℚ) := by exact_mod_cast h4
    nlinarith [mul_nonneg hn h5]
  have ht : 0 ≤ trunc ((inp.now - s.lastResp) * randNoise (cfg.downSpeed : ℚ) inp.uDown) :=
    trunc_nonneg (mul_nonneg (by linarith) hr)
  have hb : 0 ≤ tickDown cfg s inp ∧ tickDown cfg s inp ≤ s.size := by
    rw [tickDown]
    omega
  unfold advancePhase
  split
  · split
    · exact hb
    · exact hb
  · exact ⟨h0, h1⟩

/-- C10: in every request built by `announce`, the `Left` field is the
`uint64` reinterpretation of `size - down`; under the session invariant
`0 ≤ downloaded ≤ totalSize` (with `totalSize` an `int64` value) and
in-range tick inputs, the difference is non-negative and below `2^64`, so
the conversion never wraps and `Left + Downloaded = totalSize` holds. -/
theorem C10_left_never_wraps (cfg : Config) (s : Session) (ev : TEvent) (inp : TickInput)
    (h0 : 0 ≤ s.down) (h1 : s.down ≤ s.size) (h2 : s.size ≤ 2 ^ 63 - 1)
    (h3 : s.lastResp ≤ inp.now) (h4 : 0 ≤ cfg.downSpeed)
    (h5 : 0 ≤ inp.uDown) :
    ((stepReq cfg s ev inp).left : ℤ) = s.size - (stepReq cfg s ev inp).downloaded ∧
    ((stepReq cfg s ev inp).left : ℤ) + (stepReq cfg s ev inp).downloaded = s.size := by
  have hb := advancePhase_down_bounds cfg s ev inp h0 h1 h3 h4 h5
  have hsz := advancePhase_size cfg s ev inp
  have hreq : stepReq cfg s ev inp =
      { downloaded := (advancePhase cfg s ev inp).1.down
        left := (((advancePhase cfg s ev inp).1.size -
          (advancePhase cfg s ev inp).1.down) % UINT64).toNat
        uploaded := (advancePhase cfg s ev inp).1.up
        event := (advancePhase cfg s ev inp).2 } := rfl
  rw [hreq]
  have hnonneg : 0 ≤ s.size - (advancePhase cfg s ev inp).1.down := by omega
  have hlt : s.size - (advancePhase cfg s ev inp).1.down < UINT64 := by
    rw [UINT64]; omega
  have hmod : ((advancePhase cfg s ev inp).1.size - (advancePhase cfg s ev inp).1.down)
      % UINT64 = s.size - (advancePhase cfg s ev inp).1.down := by
    rw [hsz]
    exact Int.emod_eq_of_lt hnonneg hlt
  constructor
  · simp only [hmod]
    rw [Int.toNat_of_nonneg hnonneg]
  · simp only [hmod]
    rw [Int.toNat_of_nonneg hnonneg]
    ring

/-- Witness for C10: a mid-download session, 7 seconds since the last
response, download speed 10 B/s, median draw. -/
theorem C10_left_never_wraps_witness :
    ((0 : ℤ) ≤ 50 ∧ (50 : ℤ) ≤ 1000 ∧ (1000 : ℤ) ≤ 2 ^ 63 - 1 ∧ (0 : ℚ) ≤ 7 ∧
      (0 : ℤ) ≤ 10 ∧ (0 : ℚ) ≤ 1 / 2) ∧
    (((stepReq { downSpeed := 10, upSpeed := 2 }
        { size := 1000, down := 50, up := 0, complete := false, stall := false,
          lastRespSet := true, lastResp := 0 }
        TEvent.none
        { now := 7, uDown := 1 / 2, uUp := 1 / 2, transport := Option.some 60 }).left : ℤ) =
      1000 - (stepReq { downSpeed := 10, upSpeed := 2 }
        { size := 1000, down := 50, up := 0, complete := false, stall := false,
          lastRespSet := true, lastResp := 0 }
        TEvent.none
        { now := 7, uDown := 1 / 2, uUp := 1 / 2, transport := Option.some 60 }).downloaded ∧
     ((stepReq { downSpeed := 10, upSpeed := 2 }
        { size := 1000, down := 50, up := 0, complete := false, stall := false,
          lastRespSet := true, lastResp := 0 }
        TEvent.none
        { now := 7, uDown := 1 / 2, uUp := 1 / 2, transport := Option.some 60 }).left : ℤ) +
      (stepReq { downSpeed := 10, upSpeed := 2 }
        { size := 1000, down := 50, up := 0, complete := false, stall := false,
          lastRespSet := true, lastResp := 0 }
        TEvent.none
        { now := 7, uDown := 1 / 2, uUp := 1 / 2, transport := Option.some 60 }).downloaded =
      1000) :=
  ⟨⟨by norm_num, by norm_num, by norm_num, by norm_num, by norm_num, by norm_num⟩,
   C10_left_never_wraps { downSpeed := 10, upSpeed := 2 }
     { size := 1000, down := 50, up := 0, complete := false, stall := false,
       lastRespSet := true, lastResp := 0 }
     TEvent.none
     { now := 7, uDown := 1 / 2, uUp := 1 / 2, transport := Option.some 60 }
     (by norm_num) (by norm_num) (by norm_num) (by norm_num) (by norm_num)
     (by norm_num)⟩


/-- Counterexample to C5 as stated: on a failed periodic announce the
elapsed-time reference is NOT left unchanged — `announce` runs
`lastResp = time.Now()` before inspecting the transport error, so the
timestamp moves from 0 to the attempt time 7 even though the attempt
failed. -/
theorem C5_counterexample :
    (stepSession { downSpeed := 10, upSpeed := 2 }
        { size := 1000, down := 50, up := 0, complete := false, stall := false,
          lastRespSet := true, lastResp := 0 }
        TEvent.none
        { now := 7, uDown := 1 / 2, uUp := 1 / 2, transport := Option.none }).lastResp = 7 ∧
    (7 : ℚ) ≠ (0 : ℚ) :=
  ⟨rfl, by norm_num⟩

/-- C5 amended: on a transport failure during a periodic announce, the
failure handling leaves `downloaded`, `uploaded` and the completion flag
exactly as the tick's progress phase produced them (the transport outcome
has no influence on the session state at all), `stall` is untouched, the
elapsed-time reference is reset to the time of the failed attempt (not
left unchanged), and the next tick is scheduled after the fixed 30-second
retry interval rather than any tracker-assigned interval. -/
theorem C5_periodic_failure (cfg : Config) (s : Session) (inp : TickInput)
    (hfail : inp.transport = Option.none) :
    (stepSession cfg s TEvent.none inp).down = (advancePhase cfg s TEvent.none inp).1.down ∧
    (stepSession cfg s TEvent.none inp).up = (advancePhase cfg s TEvent.none inp).1.up ∧
    (stepSession cfg s TEvent.none inp).complete
        = (advancePhase cfg s TEvent.none inp).1.complete ∧
    (stepSession cfg s TEvent.none inp).stall = s.stall ∧
    (stepSession cfg s TEvent.none inp).lastResp = inp.now ∧
    (∀ j : ℕ, stepSession cfg s TEvent.none { inp with transport := Option.some j } =
        stepSession cfg s TEvent.none inp) ∧
    stepNext cfg s TEvent.none inp = Option.some retryInterval ∧
    retryInterval = 30 := by
  refine ⟨rfl, rfl, rfl, advancePhase_stall cfg s TEvent.none inp, rfl, fun j => rfl, ?_, rfl⟩
  rw [stepNext, announceStep_next, hfail]
  rcases advancePhase_event cfg s TEvent.none inp with h | h <;> rw [h] <;> rfl

/-- Witness for C5 amended, on the same failing periodic announce as the
counterexample. -/
theorem C5_periodic_failure_witness :
    (({ now := 7, uDown := 1 / 2, uUp := 1 / 2,
        transport := Option.none } : TickInput).transport = Option.none) ∧
    ((stepSession { downSpeed := 10, upSpeed := 2 }
        { size := 1000, down := 50, up := 0, complete := false, stall := false,
          lastRespSet := true, lastResp := 0 }
        TEvent.none
        { now := 7, uDown := 1 / 2, uUp := 1 / 2, transport := Option.none }).down =
        (advancePhase { downSpeed := 10, upSpeed := 2 }
          { size := 1000, down := 50, up := 0, complete := false, stall := false,
            lastRespSet := true, lastResp := 0 }
          TEvent.none
          { now := 7, uDown := 1 / 2, uUp := 1 / 2, transport := Option.none }).1.down ∧
     (stepSession { downSpeed := 10, upSpeed := 2 }
        { size := 1000, down := 50, up := 0, complete := false, stall := false,
          lastRespSet := true, lastResp := 0 }
        TEvent.none
        { now := 7, uDown := 1 / 2, uUp := 1 / 2, transport := Option.none }).up =
        (advancePhase { downSpeed := 10, upSpeed := 2 }
          { size := 1000, down := 50, up := 0, complete := false, stall := false,
            lastRespSet := true, lastResp := 0 }
          TEvent.none
          { now := 7, uDown := 1 / 2, uUp := 1 / 2, transport := Option.none }).1.up ∧
     (stepSession { downSpeed := 10, upSpeed := 2 }
        { size := 1000, down := 50, up := 0, complete := false, stall := false,
          lastRespSet := true, lastResp := 0 }
        TEvent.none
        { now := 7, uDown := 1 / 2, uUp := 1 / 2, transport := Option.none }).complete =
        (advancePhase { downSpeed := 10, upSpeed := 2 }
          { size := 1000, down := 50, up := 0, complete := false, stall := false,
            lastRespSet := true, lastResp := 0 }
          TEvent.none
          { now := 7, uDown := 1 / 2, uUp := 1 / 2, transport := Option.none }).1.complete ∧
     (stepSession { downSpeed := 10, upSpeed := 2 }
        { size := 1000, down := 50, up := 0, complete := false, stall := false,
          lastRespSet := true, lastResp := 0 }
        TEvent.none
        { now := 7, uDown := 1 / 2, uUp := 1 / 2, transport := Option.none }).stall = false ∧
     (stepSession { downSpeed := 10, upSpeed := 2 }
        { size := 1000, down := 50, up := 0, complete := false, stall := false,
          lastRespSet := true, lastResp := 0 }
        TEvent.none
        { now := 7, uDown := 1 / 2, uUp := 1 / 2, transport := Option.none }).lastResp = 7 ∧
     (∀ j : ℕ, stepSession { downSpeed := 10, upSpeed := 2 }
        { size := 1000, down := 50, up := 0, complete := false, stall := false,
          lastRespSet := true, lastResp := 0 }
        TEvent.none
        ({ ({ now := 7, uDown := 1 / 2, uUp := 1 / 2,
              transport := Option.none } : TickInput) with transport := Option.some j }) =
        stepSession { downSpeed := 10, upSpeed := 2 }
        { size := 1000, down := 50, up := 0, complete := false, stall := false,
          lastRespSet := true, lastResp := 0 }
        TEvent.none
        { now := 7, uDown := 1 / 2, uUp := 1 / 2, transport := Option.none }) ∧
     stepNext { downSpeed := 10, upSpeed := 2 }
        { size := 1000, down := 50, up := 0, complete := false, stall := false,
          lastRespSet := true, lastResp := 0 }
        TEvent.none
        { now := 7, uDown := 1 / 2, uUp := 1 / 2, transport := Option.none } =
        Option.some retryInterval ∧
     retryInterval = 30) :=
  ⟨rfl,
   C5_periodic_failure { downSpeed := 10, upSpeed := 2 }
     { size := 1000, down := 50, up := 0, complete := false, stall := false,
       lastRespSet := true, lastResp := 0 }
     { now := 7, uDown := 1 / 2, uUp := 1 / 2, transport := Option.none } rfl⟩

/-- Counterexample to C3 as stated: when cancellation arrives while the
pre-announce progress update completes the download (here 50 of 100 bytes
plus 10 s at an effective 10 B/s reaches the cap), the single final
announce issued after the interrupt carries `Completed`, not `Stopped` —
the `announce` body overwrites the passed-in event — so the run performs
zero `Stopped` announces rather than exactly one. -/
theorem C3_counterexample :
    sessionLoop { downSpeed := 10, upSpeed := 2 }
        { size := 100, down := 50, up := 0, complete := false, stall := false,
          lastRespSet := true, lastResp := 0 }
        [LoopEvt.interrupt]
        (fun _ => { now := 10, uDown := 1 / 2, uUp := 1 / 2, transport := Option.some 60 }) 0
      = [TEvent.completed] ∧
    List.count TEvent.stopped
      (sessionLoop { downSpeed := 10, upSpeed := 2 }
        { size := 100, down := 50, up := 0, complete := false, stall := false,
          lastRespSet := true, lastResp := 0 }
        [LoopEvt.interrupt]
        (fun _ => { now := 10, uDown := 1 / 2, uUp := 1 / 2, transport := Option.some 60 }) 0)
      = 0 := by
  have h : sessionLoop { downSpeed := 10, upSpeed := 2 }
      { size := 100, down := 50, up := 0, complete := false, stall := false,
        lastRespSet := true, lastResp := 0 }
      [LoopEvt.interrupt]
      (fun _ => { now := 10, uDown := 1 / 2, uUp := 1 / 2, transport := Option.some 60 }) 0
      = [TEvent.completed] := by
    norm_num [sessionLoop, stepSent, announceStep, advancePhase, tickDown, tickUp,
      randNoise, noise, trunc]
  exact ⟨h, by rw [h]; decide⟩

/-- C3 amended: once the interrupt is observed after `m` periodic ticks,
the engine issues exactly one further announce — the terminal one, built
by a single `announce(tracker.Stopped)` call with a single transport
attempt — and then terminates: any loop events pending after the interrupt
(`post`, e.g. an already-due timer) contribute nothing. The terminal
announce carries `Stopped` unless the final progress phase completes the
download with the completion not yet reported, in which case it carries
`Completed`. No earlier periodic tick ever announces `Stopped`. -/
theorem C3_single_terminal_announce (cfg : Config) (s : Session) (inp : ℕ → TickInput)
    (k m : ℕ) (post : List LoopEvt) :
    sessionLoop cfg s (List.replicate m LoopEvt.timer ++ LoopEvt.interrupt :: post) inp k =
      ticksTrace cfg inp s k m ++
        [stepSent cfg (ticksFrom cfg inp s k m) TEvent.stopped (inp (k + m))] ∧
    (stepSent cfg (ticksFrom cfg inp s k m) TEvent.stopped (inp (k + m)) = TEvent.stopped ∨
      stepSent cfg (ticksFrom cfg inp s k m) TEvent.stopped (inp (k + m)) = TEvent.completed) ∧
    TEvent.stopped ∉ ticksTrace cfg inp s k m := by
  induction m generalizing s k with
  | zero =>
      refine ⟨?_, stepSent_cases cfg s TEvent.stopped (inp (k + 0)), by simp [ticksTrace]⟩
      simp [sessionLoop, ticksTrace, ticksFrom]
  | succ n ih =>
      obtain ⟨ih1, ih2, ih3⟩ := ih (stepSession cfg s TEvent.none (inp k)) (k + 1)
      have hidx : k + 1 + n = k + (n + 1) := by omega
      rw [hidx] at ih1 ih2
      refine ⟨?_, ?_, ?_⟩
      · simp only [List.replicate_succ, List.cons_append, sessionLoop, ticksTrace, ticksFrom]
        exact congrArg (List.cons (stepSent cfg s TEvent.none (inp k))) ih1
      · simpa only [ticksFrom] using ih2
      · simp only [ticksTrace, List.mem_cons, not_or]
        refine ⟨?_, fun h => ih3 h⟩
        rcases stepSent_cases cfg s TEvent.none (inp k) with hc | hc <;>
          rw [hc] <;> intro h <;> exact absurd h (by simp)


/-- An announce step never changes `stall` (the unnamed main file declares
the flag but never assigns it). -/
theorem stepSession_stall (cfg : Config) (s : Session) (ev : TEvent) (inp : TickInput) :
    (stepSession cfg s ev inp).stall = s.stall :=
  advancePhase_stall cfg s ev inp

/-- An announce step never changes the descriptor size. -/
theorem stepSession_size (cfg : Config) (s : Session) (ev : TEvent) (inp : TickInput) :
    (stepSession cfg s ev inp).size = s.size :=
  advancePhase_size cfg s ev inp

/-- Every announce step records a response time (`lastResp = time.Now()`
runs unconditionally). -/
theorem stepSession_lastRespSet (cfg : Config) (s : Session) (ev : TEvent) (inp : TickInput) :
    (stepSession cfg s ev inp).lastRespSet = true := rfl

/-- Under a running, non-stalled session the announce step's new downloaded
total is `tickDown`. -/
theorem stepSession_down_active (cfg : Config) (s : Session) (ev : TEvent) (inp : TickInput)
    (h1 : s.lastRespSet = true) (h2 : s.stall = false) :
    (stepSession cfg s ev inp).down = tickDown cfg s inp := by
  show (advancePhase cfg s ev inp).1.down = tickDown cfg s inp
  rw [advancePhase_active cfg s ev inp h1 h2]
  split <;> rfl

/-- Under a running, non-stalled session the completion flag after an
announce step is the old flag or-ed with "the new downloaded total hit the
cap". -/
theorem stepSession_complete_active (cfg : Config) (s : Session) (ev : TEvent)
    (inp : TickInput) (h1 : s.lastRespSet = true) (h2 : s.stall = false) :
    (stepSession cfg s ev inp).complete =
      (s.complete || decide (tickDown cfg s inp = s.size)) := by
  show (advancePhase cfg s ev inp).1.complete = _
  rw [advancePhase_active cfg s ev inp h1 h2]
  by_cases hd : tickDown cfg s inp = s.size
  · cases hc : s.complete
    · rw [if_pos ⟨hd, rfl⟩]
      simp [hd]
    · rw [if_neg (by simp)]
      simp [hc]
  · rw [if_neg (by simp [hd])]
    simp [hd]

/-- Under a running, non-stalled session the event an announce step sends
is `Completed` exactly on the completing tick and the caller's event
otherwise. -/
theorem stepSent_active (cfg : Config) (s : Session) (ev : TEvent) (inp : TickInput)
    (h1 : s.lastRespSet = true) (h2 : s.stall = false) :
    stepSent cfg s ev inp =
      (if tickDown cfg s inp = s.size ∧ s.complete = false then TEvent.completed else ev) := by
  show (advancePhase cfg s ev inp).2 = _
  rw [advancePhase_active cfg s ev inp h1 h2]
  by_cases h : tickDown cfg s inp = s.size ∧ s.complete = false
  · rw [if_pos h, if_pos h]
  · rw [if_neg h, if_neg h]

/-- The loop never stalls a session that starts unstalled. -/
theorem stateStream_stall (cfg : Config) (s0 : Session) (inp : ℕ → TickInput)
    (hst : s0.stall = false) :
    ∀ n, (stateStream cfg s0 inp n).stall = false := by
  intro n
  induction n with
  | zero => exact hst
  | succ n ih =>
      show (stepSession cfg (stateStream cfg s0 inp n) TEvent.none (inp n)).stall = false
      rw [stepSession_stall]
      exact ih

/-- The loop keeps `lastResp` set once it is set. -/
theorem stateStream_lastRespSet (cfg : Config) (s0 : Session) (inp : ℕ → TickInput)
    (hlr : s0.lastRespSet = true) :
    ∀ n, (stateStream cfg s0 inp n).lastRespSet = true := by
  intro n
  cases n with
  | zero => exact hlr
  | succ n => rfl

/-- The descriptor size is constant along the loop. -/
theorem stateStream_size (cfg : Config) (s0 : Session) (inp : ℕ → TickInput) :
    ∀ n, (stateStream cfg s0 inp n).size = s0.size := by
  intro n
  induction n with
  | zero => rfl
  | succ n ih =>
      show (stepSession cfg (stateStream cfg s0 inp n) TEvent.none (inp n)).size = s0.size
      rw [stepSession_size]
      exact ih

/-- The downloaded total after the (n+1)-st state is the n-th tick's
`tickDown`. -/
theorem stateStream_down_succ (cfg : Config) (s0 : Session) (inp : ℕ → TickInput)
    (hst : s0.stall = false) (hlr : s0.lastRespSet = true) (n : ℕ) :
    (stateStream cfg s0 inp (n + 1)).down =
      tickDown cfg (stateStream cfg s0 inp n) (inp n) :=
  stepSession_down_active cfg _ TEvent.none (inp n)
    (stateStream_lastRespSet cfg s0 inp hlr n) (stateStream_stall cfg s0 inp hst n)

/-- Along a run starting with `complete = false`, the completion flag holds
exactly when some earlier tick brought the downloaded total to the cap. -/
theorem stateStream_complete_iff (cfg : Config) (s0 : Session) (inp : ℕ → TickInput)
    (hc : s0.complete = false) (hst : s0.stall = false) (hlr : s0.lastRespSet = true) :
    ∀ n, ((stateStream cfg s0 inp n).complete = true ↔
      ∃ j < n, (stateStream cfg s0 inp (j + 1)).down = s0.size) := by
  intro n
  induction n with
  | zero =>
      rw [show stateStream cfg s0 inp 0 = s0 from rfl, hc]
      simp
  | succ n ih =>
      have h1 := stateStream_lastRespSet cfg s0 inp hlr n
      have h2 := stateStream_stall cfg s0 inp hst n
      have hstep : (stateStream cfg s0 inp (n + 1)).complete =
          ((stateStream cfg s0 inp n).complete ||
            decide (tickDown cfg (stateStream cfg s0 inp n) (inp n) =
              (stateStream cfg s0 inp n).size)) :=
        stepSession_complete_active cfg (stateStream cfg s0 inp n) TEvent.none (inp n) h1 h2
      have hdown := stateStream_down_succ cfg s0 inp hst hlr n
      have hsize := stateStream_size cfg s0 inp n
      have key : (stateStream cfg s0 inp (n + 1)).complete = true ↔
          ((stateStream cfg s0 inp n).complete = true ∨
            (stateStream cfg s0 inp (n + 1)).down = s0.size) := by
        rw [hstep, Bool.or_eq_true, decide_eq_true_eq, hsize, ← hdown]
      rw [key, ih]
      constructor
      · rintro (⟨j, hj, hp⟩ | hp)
        · exact ⟨j, by omega, hp⟩
        · exact ⟨n, by omega, hp⟩
      · rintro ⟨j, hj, hp⟩
        by_cases hjn : j < n
        · exact Or.inl ⟨j, hjn, hp⟩
        · have hje : j = n := by omega
          subst hje
          exact Or.inr hp

/-- C2: over every run of the periodic tick loop from a started,
non-stalled, not-yet-completed session, the `Completed` event is sent
exactly at the tick whose progress update first brings `downloaded` to
`totalSize`; every periodic tick sends `None` or `Completed` and nothing
else, and once `Completed` has been sent it is never sent again — later
ticks at the cap report `None`. -/
theorem C2_completed_exactly_once (cfg : Config) (s0 : Session) (inp : ℕ → TickInput)
    (hc : s0.complete = false) (hst : s0.stall = false) (hlr : s0.lastRespSet = true) :
    (∀ n, eventStream cfg s0 inp n = TEvent.completed ↔
        ((stateStream cfg s0 inp (n + 1)).down = s0.size ∧
          ∀ j < n, (stateStream cfg s0 inp (j + 1)).down ≠ s0.size)) ∧
    (∀ n, eventStream cfg s0 inp n = TEvent.none ∨
        eventStream cfg s0 inp n = TEvent.completed) ∧
    (∀ m n, m < n → eventStream cfg s0 inp m = TEvent.completed →
        eventStream cfg s0 inp n ≠ TEvent.completed) := by
  have hiff : ∀ n, (eventStream cfg s0 inp n = TEvent.completed ↔
      ((stateStream cfg s0 inp (n + 1)).down = s0.size ∧
        ∀ j < n, (stateStream cfg s0 inp (j + 1)).down ≠ s0.size)) := by
    intro n
    have h1 := stateStream_lastRespSet cfg s0 inp hlr n
    have h2 := stateStream_stall cfg s0 inp hst n
    have hsent : eventStream cfg s0 inp n =
        (if tickDown cfg (stateStream cfg s0 inp n) (inp n) = (stateStream cfg s0 inp n).size ∧
            (stateStream cfg s0 inp n).complete = false
         then TEvent.completed else TEvent.none) :=
      stepSent_active cfg (stateStream cfg s0 inp n) TEvent.none (inp n) h1 h2
    have hdown := stateStream_down_succ cfg s0 inp hst hlr n
    have hsize := stateStream_size cfg s0 inp n
    have hcompl := stateStream_complete_iff cfg s0 inp hc hst hlr n
    have hcond_iff : (tickDown cfg (stateStream cfg s0 inp n) (inp n) =
          (stateStream cfg s0 inp n).size ∧ (stateStream cfg s0 inp n).complete = false) ↔
        ((stateStream cfg s0 inp (n + 1)).down = s0.size ∧
          ∀ j < n, (stateStream cfg s0 inp (j + 1)).down ≠ s0.size) := by
      rw [← hdown, hsize]
      constructor
      · rintro ⟨ha, hb⟩
        refine ⟨ha, fun j hj hp => ?_⟩
        have habs : (stateStream cfg s0 inp n).complete = true := hcompl.mpr ⟨j, hj, hp⟩
        rw [habs] at hb
        cases hb
      · rintro ⟨ha, hb⟩
        refine ⟨ha, ?_⟩
        have hnot : ¬(stateStream cfg s0 inp n).complete = true := by
          rw [hcompl]
          rintro ⟨j, hj, hp⟩
          exact hb j hj hp
        cases hfin : (stateStream cfg s0 inp n).complete with
        | false => rfl
        | true => exact absurd hfin hnot
    rw [hsent]
    by_cases hcond : tickDown cfg (stateStream cfg s0 inp n) (inp n) =
        (stateStream cfg s0 inp n).size ∧ (stateStream cfg s0 inp n).complete = false
    · rw [if_pos hcond]
      exact ⟨fun _ => hcond_iff.mp hcond, fun _ => rfl⟩
    · rw [if_neg hcond]
      constructor
      · intro h
        cases h
      · intro h
        exact absurd (hcond_iff.mpr h) hcond
  refine ⟨hiff, ?_, ?_⟩
  · intro n
    have h1 := stateStream_lastRespSet cfg s0 inp hlr n
    have h2 := stateStream_stall cfg s0 inp hst n
    have hsent : eventStream cfg s0 inp n =
        (if tickDown cfg (stateStream cfg s0 inp n) (inp n) = (stateStream cfg s0 inp n).size ∧
            (stateStream cfg s0 inp n).complete = false
         then TEvent.completed else TEvent.none) :=
      stepSent_active cfg (stateStream cfg s0 inp n) TEvent.none (inp n) h1 h2
    rw [hsent]
    split
    · exact Or.inr rfl
    · exact Or.inl rfl
  · intro m n hmn hm hn
    obtain ⟨hm1, _⟩ := (hiff m).mp hm
    obtain ⟨_, hn2⟩ := (hiff n).mp hn
    exact hn2 m hmn hm1

/-- Witness for C2 on a concrete run: size 100, starting from zero
progress, constant tick inputs. -/
theorem C2_completed_exactly_once_witness :
    (({ size := 100, down := 0, up := 0, complete := false, stall := false,
        lastRespSet := true, lastResp := 0 } : Session).complete = false ∧
     ({ size := 100, down := 0, up := 0, complete := false, stall := false,
        lastRespSet := true, lastResp := 0 } : Session).stall = false ∧
     ({ size := 100, down := 0, up := 0, complete := false, stall := false,
        lastRespSet := true, lastResp := 0 } : Session).lastRespSet = true) ∧
    ((∀ n, eventStream { downSpeed := 10, upSpeed := 2 }
          { size := 100, down := 0, up := 0, complete := false, stall := false,
            lastRespSet := true, lastResp := 0 }
          (fun _ => { now := 5, uDown := 1 / 2, uUp := 1 / 2, transport := Option.some 60 }) n =
          TEvent.completed ↔
        ((stateStream { downSpeed := 10, upSpeed := 2 }
            { size := 100, down := 0, up := 0, complete := false, stall := false,
              lastRespSet := true, lastResp := 0 }
            (fun _ => { now := 5, uDown := 1 / 2, uUp := 1 / 2, transport := Option.some 60 })
            (n + 1)).down = 100 ∧
          ∀ j < n, (stateStream { downSpeed := 10, upSpeed := 2 }
            { size := 100, down := 0, up := 0, complete := false, stall := false,
              lastRespSet := true, lastResp := 0 }
            (fun _ => { now := 5, uDown := 1 / 2, uUp := 1 / 2, transport := Option.some 60 })
            (j + 1)).down ≠ 100)) ∧
     (∀ n, eventStream { downSpeed := 10, upSpeed := 2 }
          { size := 100, down := 0, up := 0, complete := false, stall := false,
            lastRespSet := true, lastResp := 0 }
          (fun _ => { now := 5, uDown := 1 / 2, uUp := 1 / 2, transport := Option.some 60 }) n =
          TEvent.none ∨
        eventStream { downSpeed := 10, upSpeed := 2 }
          { size := 100, down := 0, up := 0, complete := false, stall := false,
            lastRespSet := true, lastResp := 0 }
          (fun _ => { now := 5, uDown := 1 / 2, uUp := 1 / 2, transport := Option.some 60 }) n =
          TEvent.completed) ∧
     (∀ m n, m < n →
        eventStream { downSpeed := 10, upSpeed := 2 }
          { size := 100, down := 0, up := 0, complete := false, stall := false,
            lastRespSet := true, lastResp := 0 }
          (fun _ => { now := 5, uDown := 1 / 2, uUp := 1 / 2, transport := Option.some 60 }) m =
          TEvent.completed →
        eventStream { downSpeed := 10, upSpeed := 2 }
          { size := 100, down := 0, up := 0, complete := false, stall := false,
            lastRespSet := true, lastResp := 0 }
          (fun _ => { now := 5, uDown := 1 / 2, uUp := 1 / 2, transport := Option.some 60 }) n ≠
          TEvent.completed)) :=
  ⟨⟨rfl, rfl, rfl⟩,
   C2_completed_exactly_once { downSpeed := 10, upSpeed := 2 }
     { size := 100, down := 0, up := 0, complete := false, stall := false,
       lastRespSet := true, lastResp := 0 }
     (fun _ => { now := 5, uDown := 1 / 2, uUp := 1 / 2, transport := Option.some 60 })
     rfl rfl rfl⟩

end Ratioboss
